import Mathlib

/-!
Verification development for `event-handler-loader` (src/src/index.ts).

The embedding models the JavaScript runtime values the loader manipulates
as a small inductive type `JsValue`, module exports and module namespaces
as association lists, and each function of the source as a Lean function
over these. Objects are modelled without prototype chains, so the `in`
operator coincides with own-property lookup; `console.error` output is
modelled as a list of the skipped export names.
-/

/-- A JavaScript runtime value, as far as the loader inspects values:
`undefined`, `null`, booleans, (integer) numbers, strings, symbols
(carrying their description) and functions (carrying their declared-async
flag and an identity tag so distinct functions can be told apart). -/
inductive JsValue where
  | vUndefined : JsValue
  | vNull : JsValue
  | vBool : Bool → JsValue
  | vNum : Int → JsValue
  | vStr : String → JsValue
  | vSym : String → JsValue
  | vFn : Bool → Nat → JsValue
deriving DecidableEq, Repr

/-- JavaScript truthiness of a value. -/
def jsTruthy : JsValue → Bool
  | .vUndefined => false
  | .vNull => false
  | .vBool b => b
  | .vNum n => n != 0
  | .vStr s => s != ""
  | .vSym _ => true
  | .vFn _ _ => true

/-- The JavaScript `typeof` operator. -/
def jsTypeof : JsValue → String
  | .vUndefined => "undefined"
  | .vNull => "object"
  | .vBool _ => "boolean"
  | .vNum _ => "number"
  | .vStr _ => "string"
  | .vSym _ => "symbol"
  | .vFn _ _ => "function"

/-- The JavaScript `String(...)` conversion. -/
def jsToString : JsValue → String
  | .vUndefined => "undefined"
  | .vNull => "null"
  | .vBool b => if b then "true" else "false"
  | .vNum n => toString n
  | .vStr s => s
  | .vSym d => "Symbol(" ++ d ++ ")"
  | .vFn _ _ => "function"

/-- The JavaScript `String.prototype.endsWith`. -/
def jsEndsWith (s suffixArg : String) : Bool :=
  List.isSuffixOf suffixArg.data s.data

/-- A module export treated as an object: an association list from
property names to values (first binding wins, no prototype chain). -/
abbrev ModuleExport := List (String × JsValue)

/-- The `in` operator on a modelled object (own property presence). -/
def hasProperty (m : ModuleExport) (k : String) : Bool :=
  m.any (fun p => p.1 == k)

/-- Property read `m[k]` on a modelled object; absent reads give
`undefined`, as in JavaScript. -/
def getProperty (m : ModuleExport) (k : String) : JsValue :=
  match m.find? (fun p => p.1 == k) with
  | some p => p.2
  | none => .vUndefined

/-- The resolved event-handler key aliases (source:
`preferredEventHandlerKeys` after merging with the defaults). -/
structure EventHandlerKeys where
  name : String
  isOnce : String
  isPrepend : String
  execute : String
deriving DecidableEq, Repr

/-- Source constant `DEFAULT_EVENT_HANDLER_KEY_NAMES`. -/
def DEFAULT_EVENT_HANDLER_KEY_NAMES : EventHandlerKeys :=
  ⟨"name", "isOnce", "isPrepend", "execute"⟩

/-- Source `isAsyncFunction`: a function whose constructor is
`AsyncFunction` (modelled by the declared-async flag of `vFn`). -/
def isAsyncFunction : JsValue → Bool
  | .vFn a _ => a
  | _ => false

/-- Identity tag of a function value (to track which `execute` a
listener closes over). -/
def fnIdOf : JsValue → Nat
  | .vFn _ i => i
  | _ => 0

/-- Source `getMergedListenerArgs`. -/
def getMergedListenerArgs (prependedArgs emittedArgs : List JsValue) : List JsValue :=
  if prependedArgs.length > 0 then prependedArgs ++ emittedArgs else emittedArgs

/-- The listener closure produced by `getAsyncAwareListener`: it
remembers whether it awaits (async branch), which execute function it
calls, and the captured prepended arguments. -/
structure Listener where
  isAsync : Bool
  fnId : Nat
  prependedArgs : List JsValue
deriving DecidableEq, Repr

/-- Source `getAsyncAwareListener`: both branches build a closure over
the execute method and the prepended arguments; the async branch is the
one taken for declared-async execute methods. -/
def getAsyncAwareListener (executeMethod : JsValue) (listenerPrependedArgs : List JsValue) : Listener :=
  ⟨isAsyncFunction executeMethod, fnIdOf executeMethod, listenerPrependedArgs⟩

/-- Calling the wrapped listener with the emission-time arguments: both
the sync and async closures of `getAsyncAwareListener` invoke the
execute function with `getMergedListenerArgs prepended emitted`. The
result records which function is invoked and with which argument list. -/
def invokeListener (l : Listener) (emittedArgs : List JsValue) : Nat × List JsValue :=
  (l.fnId, getMergedListenerArgs l.prependedArgs emittedArgs)

/-- The five registration methods named in
`EVENT_EMITTER_ADD_LISTENER_METHOD_NAMES`; `addListener` is an alias of
`on` and is never called by the binder, so it is not a constructor. -/
inductive RegMethod where
  | on : RegMethod
  | once : RegMethod
  | prependListener : RegMethod
  | prependOnceListener : RegMethod
deriving DecidableEq, Repr

/-- One registration call performed on the target emitter. -/
structure EmitterCall where
  method : RegMethod
  eventName : String
  listener : Listener
deriving DecidableEq, Repr

/-- The errors thrown by `bindEventListener`, carrying the data its
message templates interpolate (offending key alias, stringified value
where the message shows one, and the module file URL). -/
inductive BindError where
  | missingProperty (key file : String)
  | invalidNameValue (key value file : String)
  | invalidIsOnceValue (key file : String)
  | invalidIsPrependValue (key file : String)
  | invalidExecuteValue (key file : String)
deriving DecidableEq, Repr

/-- True exactly for the two flag type errors (about `isOnce` /
`isPrepend`). -/
def BindError.isFlagTypeError : BindError → Bool
  | .invalidIsOnceValue _ _ => true
  | .invalidIsPrependValue _ _ => true
  | _ => false

/-- Source `bindEventListener` (src/src/index.ts lines 91-135). The
emitter argument is dropped; instead the function returns the list of
registration calls it performs on the emitter. Note that the source
computes `nameValue` as `String(moduleExport[nameKeyName])` before the
type check, and checks the flags with `if (value && typeof value !==
"boolean")`. -/
def bindEventListener (moduleExport : ModuleExport) (keys : EventHandlerKeys)
    (listenerPrependedArgs : List JsValue) (fileUrlHref : String) :
    Except BindError (List EmitterCall) :=
  if hasProperty moduleExport keys.name = false then
    .error (.missingProperty keys.name fileUrlHref)
  else if hasProperty moduleExport keys.execute = false then
    .error (.missingProperty keys.execute fileUrlHref)
  else
    let nameValueStr := jsToString (getProperty moduleExport keys.name)
    let nameValue : JsValue := .vStr nameValueStr
    let isOnceValue := getProperty moduleExport keys.isOnce
    let isPrependValue := getProperty moduleExport keys.isPrepend
    let executeMethod := getProperty moduleExport keys.execute
    if jsTruthy nameValue = false ∨ (jsTypeof nameValue ≠ "string" ∧ jsTypeof nameValue ≠ "symbol") then
      .error (.invalidNameValue keys.name nameValueStr fileUrlHref)
    else if jsTruthy isOnceValue = true ∧ jsTypeof isOnceValue ≠ "boolean" then
      .error (.invalidIsOnceValue keys.isOnce fileUrlHref)
    else if jsTruthy isPrependValue = true ∧ jsTypeof isPrependValue ≠ "boolean" then
      .error (.invalidIsPrependValue keys.isPrepend fileUrlHref)
    else if jsTypeof executeMethod ≠ "function" then
      .error (.invalidExecuteValue keys.execute fileUrlHref)
    else
      let listener := getAsyncAwareListener executeMethod listenerPrependedArgs
      if jsTruthy isOnceValue = true then
        if jsTruthy isPrependValue = true then
          .ok [⟨.prependOnceListener, nameValueStr, listener⟩]
        else
          .ok [⟨.once, nameValueStr, listener⟩]
      else
        if jsTruthy isPrependValue = true then
          .ok [⟨.prependListener, nameValueStr, listener⟩]
        else
          .ok [⟨.on, nameValueStr, listener⟩]

/-- An emitter's listener store, as far as counting listeners per event
name is observable: the sequence of registered entries. -/
abbrev EmitterState := List EmitterCall

/-- Effect of one registration call on the emitter state: `on`/`once`
append, the two prepending methods add at the front. -/
def applyEmitterCall (st : EmitterState) (c : EmitterCall) : EmitterState :=
  match c.method with
  | .on => st ++ [c]
  | .once => st ++ [c]
  | .prependListener => c :: st
  | .prependOnceListener => c :: st

/-- `emitter.listenerCount(event)`. -/
def listenerCount (st : EmitterState) (event : String) : Nat :=
  (st.filter (fun c => c.eventName == event)).length

/-- A module namespace: the ordered own-enumerable exports of a loaded
file (name, value). `for ... in` over a module namespace enumerates
exactly these, and `hasOwnProperty` is always true for them. -/
abbrev ModuleNamespace := List (String × JsValue)

/-- Presence of an export slot on the namespace. -/
def namespaceHas (ns : ModuleNamespace) (k : String) : Bool :=
  ns.any (fun p => p.1 == k)

/-- `moduleNamespace[exportName]`, `undefined` when absent. -/
def namespaceGet (ns : ModuleNamespace) (k : String) : JsValue :=
  match ns.find? (fun p => p.1 == k) with
  | some p => p.2
  | none => .vUndefined

/-- Error thrown by `importModule`; carries whether the export type was
`named`, the export name the message interpolates, and the file URL. -/
inductive ImportError where
  | exportNotFound (isNamed : Bool) (exportName : String) (file : String)
deriving DecidableEq, Repr

/-- The `named` + `*` loop of `importModule` (lines 141-150): walk the
namespace in order; a falsy export, or the `default` slot, is skipped
with a `console.error` line (second component collects the skipped
export names); every other export is pushed. -/
def collectNamedExports : ModuleNamespace → List JsValue × List String
  | [] => ([], [])
  | (exportName, v) :: rest =>
    let r := collectNamedExports rest
    if !jsTruthy v || exportName == "default" then (r.1, exportName :: r.2)
    else (v :: r.1, r.2)

/-- Source `importModule` (lines 137-165), with the dynamic `import()`
replaced by the namespace it yields. Returns the selected handler
candidates plus the `console.error` log entries (skipped export names). -/
def importModule (ns : ModuleNamespace) (exportType : String) (preferredExportName : String)
    (fileUrlHref : String) : Except ImportError (List JsValue × List String) :=
  let isNamedExportType := exportType == "named"
  if isNamedExportType = true ∧ preferredExportName = "*" then
    .ok (collectNamedExports ns)
  else
    let exportName := if isNamedExportType = true then preferredExportName else "default"
    let moduleExport := namespaceGet ns exportName
    if !jsTruthy moduleExport || !namespaceHas ns exportName then
      .error (.exportNotFound isNamedExportType exportName fileUrlHref)
    else
      .ok ([moduleExport], [])

/-- A caller-supplied bind override callback: its declared-async flag
(drives whether the Orchestrator awaits it) and an identity tag. -/
structure OverrideFn where
  isAsync : Bool
  id : Nat
deriving DecidableEq, Repr

/-- What happened to one module export inside the per-export loop of
`loadEventHandler` (lines 220-230): either the default binder ran and
performed a registration call, or the override was invoked with
`(targetEmitter, handlerCandidate, fileUrlHref, listenerPrependedArgs)`
(the emitter is implicit here; `awaited` records whether the call was
awaited, i.e. whether the override is declared async). -/
inductive BindAction where
  | bound (call : EmitterCall)
  | overridden (awaited : Bool) (overrideId : Nat) (candidate : ModuleExport)
      (file : String) (args : List JsValue)
deriving DecidableEq, Repr

/-- The per-export loop of `loadEventHandler` (lines 220-230): for each
module export, bind via `bindEventListener` when no override function is
present, otherwise call the override (awaiting it when it is declared
async); a thrown bind error aborts the whole loop. -/
def processModuleExports (moduleExports : List ModuleExport) (keys : EventHandlerKeys)
    (listenerPrependedArgs : List JsValue) (fileUrlHref : String)
    (overrideFn : Option OverrideFn) : Except BindError (List BindAction) :=
  match moduleExports with
  | [] => .ok []
  | me :: rest =>
    match overrideFn with
    | none =>
      match bindEventListener me keys listenerPrependedArgs fileUrlHref with
      | .error e => .error e
      | .ok calls =>
        match processModuleExports rest keys listenerPrependedArgs fileUrlHref none with
        | .error e => .error e
        | .ok actions => .ok (calls.map BindAction.bound ++ actions)
    | some f =>
      match processModuleExports rest keys listenerPrependedArgs fileUrlHref (some f) with
      | .error e => .error e
      | .ok actions =>
        .ok (BindAction.overridden f.isAsync f.id me fileUrlHref listenerPrependedArgs :: actions)

/-- The extension guard at the top of `loadEventHandler` (line 214): the
file is skipped (early return) unless this is true. Note the source
tests `file.endsWith("cjs")` without a leading dot. -/
def fileProceeds (file : String) : Bool :=
  !(!jsEndsWith file ".js" && !jsEndsWith file ".ts" && !jsEndsWith file ".mjs" && !jsEndsWith file "cjs")

/-- Modelled from the spec (section 4.5 step 6): a file name has one of
the recognized loadable-module extensions `.js`/`.mjs`/`.cjs`/`.ts`.
Used only to compare the spec's filter against the source's guard. -/
def hasLoadableModuleExtension (file : String) : Bool :=
  jsEndsWith file ".js" || jsEndsWith file ".mjs" || jsEndsWith file ".cjs" || jsEndsWith file ".ts"

/-- The per-file pipeline head of `loadEventHandler`: a file failing the
extension guard returns immediately (no import, no exports, no logs, no
error); otherwise the module is imported under the export policy. -/
def loadEventHandlerFile (file : String) (ns : ModuleNamespace)
    (exportType preferredExportName : String) (fileUrlHref : String) :
    Except ImportError (List JsValue × List String) :=
  if fileProceeds file = false then .ok ([], [])
  else importModule ns exportType preferredExportName fileUrlHref

/-- The caller-visible option bag fields, each possibly present (a
present field overrides the default even when its value is
`undefined`, matching object-spread semantics). -/
structure KeysObj where
  name : Option JsValue
  isOnce : Option JsValue
  isPrepend : Option JsValue
  execute : Option JsValue
deriving DecidableEq, Repr

/-- The options object's recognized fields, each possibly present. -/
structure OptionsObj where
  importMode : Option JsValue
  exportType : Option JsValue
  listenerPrependedArgs : Option (List JsValue)
  preferredNamedExport : Option JsValue
  preferredEventHandlerKeys : Option KeysObj
deriving DecidableEq, Repr

/-- The runtime value actually passed as the `options` argument: absent,
`null`, a primitive, an array, or a plain object. -/
inductive OptionsArg where
  | undefinedArg : OptionsArg
  | null : OptionsArg
  | prim (v : JsValue) : OptionsArg
  | arr (vs : List JsValue) : OptionsArg
  | obj (o : OptionsObj) : OptionsArg
deriving DecidableEq, Repr

/-- Object-spread of the options argument, as read through the five
recognized field names: spreading `null`/`undefined` contributes
nothing; spreading a primitive or an array contributes only index /
character keys, none of which is a recognized field name. -/
def toOptionsObj : OptionsArg → OptionsObj
  | .obj o => o
  | _ => ⟨none, none, none, none, none⟩

/-- Merged key values after `{ ...DEFAULT_EVENT_HANDLER_KEY_NAMES,
...eventHandlerOptions.preferredEventHandlerKeys }` (line 185), before
validation, so each is still an arbitrary value. -/
structure MergedKeys where
  name : JsValue
  isOnce : JsValue
  isPrepend : JsValue
  execute : JsValue
deriving DecidableEq, Repr

/-- Spread-merge of the caller's key aliases over the defaults. -/
def mergeEventHandlerKeys (k : Option KeysObj) : MergedKeys :=
  match k with
  | none => ⟨.vStr "name", .vStr "isOnce", .vStr "isPrepend", .vStr "execute"⟩
  | some ko =>
    ⟨ko.name.getD (.vStr "name"), ko.isOnce.getD (.vStr "isOnce"),
     ko.isPrepend.getD (.vStr "isPrepend"), ko.execute.getD (.vStr "execute")⟩

/-- Merged options after `{ ...DEFAULT_LOAD_EVENT_HANDLERS_OPTIONS,
...options }` (line 180), before validation. -/
structure MergedOptions where
  importMode : JsValue
  exportType : JsValue
  listenerPrependedArgs : List JsValue
  preferredNamedExport : JsValue
  preferredEventHandlerKeys : Option KeysObj
deriving DecidableEq, Repr

/-- Spread-merge of the options argument over the defaults. -/
def mergeOptions (o : OptionsObj) : MergedOptions :=
  ⟨o.importMode.getD (.vStr "concurrent"), o.exportType.getD (.vStr "default"),
   o.listenerPrependedArgs.getD [], o.preferredNamedExport.getD (.vStr "eventHandler"),
   o.preferredEventHandlerKeys⟩

/-- `Array.prototype.includes` over a string array, with `===`
semantics: only a string value can match. -/
def jsIncludes (l : List String) (v : JsValue) : Bool :=
  match v with
  | .vStr s => l.contains s
  | _ => false

/-- Source constant `DEFAULT_IMPORT_MODES`. -/
def DEFAULT_IMPORT_MODES : List String := ["concurrent", "sequential"]

/-- Source constant `DEFAULT_EXPORT_TYPES`. -/
def DEFAULT_EXPORT_TYPES : List String := ["default", "named"]

/-- Errors thrown by the option-validation block of `loadEventHandlers`
(lines 188-207), carrying the role / stringified offending value. -/
inductive OptionsError where
  | invalidKeyName (role : String) (value : String)
  | invalidImportMode (value : String)
  | invalidExportType (value : String)
  | invalidPreferredNamedExport (value : String)
deriving DecidableEq, Repr

/-- The options a load call actually runs with once validation passed. -/
structure ResolvedOptions where
  importMode : String
  exportType : String
  listenerPrependedArgs : List JsValue
  preferredNamedExport : String
  preferredEventHandlerKeys : EventHandlerKeys
deriving DecidableEq, Repr

/-- The options stage of `loadEventHandlers` (lines 180-208): spread the
options argument over the defaults, spread the key aliases over their
defaults, then validate each value in source order; the first violation
throws. There is no check that the options argument itself is a plain
object. -/
def resolveOptions (optionsArg : OptionsArg) : Except OptionsError ResolvedOptions :=
  let o := mergeOptions (toOptionsObj optionsArg)
  let keys := mergeEventHandlerKeys o.preferredEventHandlerKeys
  if !jsTruthy keys.name || jsTypeof keys.name != "string" then
    .error (.invalidKeyName "name" (jsToString keys.name))
  else if !jsTruthy keys.isOnce || jsTypeof keys.isOnce != "string" then
    .error (.invalidKeyName "isOnce" (jsToString keys.isOnce))
  else if !jsTruthy keys.isPrepend || jsTypeof keys.isPrepend != "string" then
    .error (.invalidKeyName "isPrepend" (jsToString keys.isPrepend))
  else if !jsTruthy keys.execute || jsTypeof keys.execute != "string" then
    .error (.invalidKeyName "execute" (jsToString keys.execute))
  else if !jsTruthy o.importMode || !jsIncludes DEFAULT_IMPORT_MODES o.importMode then
    .error (.invalidImportMode (jsToString o.importMode))
  else if !jsTruthy o.exportType || !jsIncludes DEFAULT_EXPORT_TYPES o.exportType then
    .error (.invalidExportType (jsToString o.exportType))
  else if !jsTruthy o.preferredNamedExport || jsTypeof o.preferredNamedExport != "string" then
    .error (.invalidPreferredNamedExport (jsToString o.preferredNamedExport))
  else
    .ok ⟨jsToString o.importMode, jsToString o.exportType, o.listenerPrependedArgs,
         jsToString o.preferredNamedExport,
         ⟨jsToString keys.name, jsToString keys.isOnce, jsToString keys.isPrepend,
          jsToString keys.execute⟩⟩

/-- The resolved options produced by the defaults alone. -/
def defaultResolvedOptions : ResolvedOptions :=
  ⟨"concurrent", "default", [], "eventHandler", DEFAULT_EVENT_HANDLER_KEY_NAMES⟩

-- Basic lemmas about the embedding

theorem getMergedListenerArgs_eq (p e : List JsValue) :
    getMergedListenerArgs p e = p ++ e := by
  cases p with
  | nil => simp [getMergedListenerArgs]
  | cons a as => simp [getMergedListenerArgs]

theorem getProperty_of_not_has (m : ModuleExport) (k : String)
    (h : hasProperty m k = false) : getProperty m k = .vUndefined := by
  induction m with
  | nil => rfl
  | cons hd tl ih =>
    simp only [hasProperty, List.any_cons, Bool.or_eq_false_iff] at h
    simp only [getProperty, List.find?]
    rw [h.1]
    exact ih h.2

theorem jsTruthy_vStr (s : String) : jsTruthy (.vStr s) = (s != "") := rfl

/-- Shape of every successful bind: exactly one registration call, whose
event name is the `String(...)`-coerced name value, whose listener wraps
the execute value with the prepended arguments, and whose method is
selected by the truthiness of the stored flag values. -/
theorem bindEventListener_ok_shape (m : ModuleExport) (keys : EventHandlerKeys)
    (pargs : List JsValue) (file : String) (calls : List EmitterCall)
    (h : bindEventListener m keys pargs file = .ok calls) :
    calls = [⟨(if jsTruthy (getProperty m keys.isOnce) = true then
                 (if jsTruthy (getProperty m keys.isPrepend) = true then
                    RegMethod.prependOnceListener else RegMethod.once)
               else
                 (if jsTruthy (getProperty m keys.isPrepend) = true then
                    RegMethod.prependListener else RegMethod.on)),
              jsToString (getProperty m keys.name),
              getAsyncAwareListener (getProperty m keys.execute) pargs⟩] := by
  simp only [bindEventListener] at h
  split at h
  · exact Except.noConfusion h
  · split at h
    · exact Except.noConfusion h
    · split at h
      · exact Except.noConfusion h
      · split at h
        · exact Except.noConfusion h
        · split at h
          · exact Except.noConfusion h
          · split at h
            · exact Except.noConfusion h
            · split at h
              · split at h
                · injection h with h'
                  subst h'
                  simp_all
                · injection h with h'
                  subst h'
                  simp_all
              · split at h
                · injection h with h'
                  subst h'
                  simp_all
                · injection h with h'
                  subst h'
                  simp_all

theorem listenerCount_append (st : EmitterState) (c : EmitterCall) :
    listenerCount (st ++ [c]) c.eventName = listenerCount st c.eventName + 1 := by
  simp [listenerCount, List.filter_append]

-- Claim theorems

/-- C1: for every validated handler, the binder performs exactly one
registration call on the target emitter, selected by the once/prepend
flags: once and prepend give `prependOnceListener`, once alone gives
`once`, prepend alone gives `prependListener`, neither gives `on`. -/
theorem binder_selects_exactly_one_registration (m : ModuleExport)
    (keys : EventHandlerKeys) (pargs : List JsValue) (file : String)
    (calls : List EmitterCall)
    (h : bindEventListener m keys pargs file = .ok calls) :
    ∃ c, calls = [c] ∧
      c.method = (if jsTruthy (getProperty m keys.isOnce) = true then
                    (if jsTruthy (getProperty m keys.isPrepend) = true then
                       RegMethod.prependOnceListener else RegMethod.once)
                  else
                    (if jsTruthy (getProperty m keys.isPrepend) = true then
                       RegMethod.prependListener else RegMethod.on)) := by
  rw [bindEventListener_ok_shape m keys pargs file calls h]
  exact ⟨_, rfl, rfl⟩

/-- C1 witness: a handler with neither flag set is registered by exactly
one call of the `on` method. -/
theorem binder_selects_exactly_one_registration_witness :
    ∃ c, ([⟨RegMethod.on, "ping", ⟨false, 3, []⟩⟩] : List EmitterCall) = [c] ∧
      c.method =
        (if jsTruthy (getProperty [("name", JsValue.vStr "ping"), ("execute", JsValue.vFn false 3)]
             DEFAULT_EVENT_HANDLER_KEY_NAMES.isOnce) = true then
           (if jsTruthy (getProperty [("name", JsValue.vStr "ping"), ("execute", JsValue.vFn false 3)]
                DEFAULT_EVENT_HANDLER_KEY_NAMES.isPrepend) = true then
              RegMethod.prependOnceListener else RegMethod.once)
         else
           (if jsTruthy (getProperty [("name", JsValue.vStr "ping"), ("execute", JsValue.vFn false 3)]
                DEFAULT_EVENT_HANDLER_KEY_NAMES.isPrepend) = true then
              RegMethod.prependListener else RegMethod.on)) :=
  binder_selects_exactly_one_registration
    [("name", JsValue.vStr "ping"), ("execute", JsValue.vFn false 3)]
    DEFAULT_EVENT_HANDLER_KEY_NAMES [] "file:///a.js"
    [⟨RegMethod.on, "ping", ⟨false, 3, []⟩⟩] rfl

/-- C2: every listener registered by a successful bind invokes the
execute function with the configured prepended arguments first, then the
emission-time arguments, preserving order within each group; and for a
handler whose stored once/prepend values are falsy, the single `on`
registration increases the listener count for its event name by exactly
one. -/
theorem listener_merges_args_and_count_increases (m : ModuleExport)
    (keys : EventHandlerKeys) (pargs : List JsValue) (file : String)
    (calls : List EmitterCall)
    (h : bindEventListener m keys pargs file = .ok calls) :
    (∀ c ∈ calls, ∀ eargs,
       invokeListener c.listener eargs = (c.listener.fnId, pargs ++ eargs)) ∧
    (jsTruthy (getProperty m keys.isOnce) = false →
     jsTruthy (getProperty m keys.isPrepend) = false →
     ∀ c ∈ calls, c.method = RegMethod.on ∧
       ∀ st, listenerCount (applyEmitterCall st c) c.eventName =
             listenerCount st c.eventName + 1) := by
  rw [bindEventListener_ok_shape m keys pargs file calls h]
  constructor
  · intro c hc eargs
    rw [List.mem_singleton] at hc
    subst hc
    simp [invokeListener, getMergedListenerArgs_eq, getAsyncAwareListener]
  · intro h1 h2 c hc
    rw [List.mem_singleton] at hc
    subst hc
    refine ⟨by simp [h1, h2], ?_⟩
    intro st
    have hm : (applyEmitterCall st
        ⟨(if jsTruthy (getProperty m keys.isOnce) = true then
            (if jsTruthy (getProperty m keys.isPrepend) = true then
               RegMethod.prependOnceListener else RegMethod.once)
          else
            (if jsTruthy (getProperty m keys.isPrepend) = true then
               RegMethod.prependListener else RegMethod.on)),
          jsToString (getProperty m keys.name),
          getAsyncAwareListener (getProperty m keys.execute) pargs⟩) =
        st ++ [⟨(if jsTruthy (getProperty m keys.isOnce) = true then
            (if jsTruthy (getProperty m keys.isPrepend) = true then
               RegMethod.prependOnceListener else RegMethod.once)
          else
            (if jsTruthy (getProperty m keys.isPrepend) = true then
               RegMethod.prependListener else RegMethod.on)),
          jsToString (getProperty m keys.name),
          getAsyncAwareListener (getProperty m keys.execute) pargs⟩] := by
      simp [applyEmitterCall, h1, h2]
    rw [hm]
    exact listenerCount_append st _

/-- C2 witness: a concrete listener receives the prepended argument then
the emitted argument, and a concrete `on` registration raises the
listener count from zero to one. -/
theorem listener_merges_args_and_count_increases_witness :
    invokeListener ⟨false, 3, [JsValue.vNum 1]⟩ [JsValue.vStr "x"] =
      (3, [JsValue.vNum 1, JsValue.vStr "x"]) ∧
    listenerCount (applyEmitterCall []
        ⟨RegMethod.on, "ping", ⟨false, 3, [JsValue.vNum 1]⟩⟩) "ping" =
      listenerCount [] "ping" + 1 := by
  have h := listener_merges_args_and_count_increases
    [("name", JsValue.vStr "ping"), ("execute", JsValue.vFn false 3)]
    DEFAULT_EVENT_HANDLER_KEY_NAMES [JsValue.vNum 1] "file:///a.js"
    [⟨RegMethod.on, "ping", ⟨false, 3, [JsValue.vNum 1]⟩⟩] rfl
  refine ⟨h.1 _ (List.mem_cons_self _ _) _, ?_⟩
  exact (h.2 rfl rfl _ (List.mem_cons_self _ _)).2 []

/-- C3: validation first requires the candidate to have a property under
the name alias and under the execute alias, failing with an error naming
the missing alias and the source file; the absence of the isOnce or
isPrepend properties never produces a flag type error. -/
theorem missing_required_properties_fail :
    (∀ (m : ModuleExport) (keys : EventHandlerKeys) (pargs : List JsValue) (file : String),
       hasProperty m keys.name = false →
       bindEventListener m keys pargs file = .error (.missingProperty keys.name file)) ∧
    (∀ (m : ModuleExport) (keys : EventHandlerKeys) (pargs : List JsValue) (file : String),
       hasProperty m keys.name = true → hasProperty m keys.execute = false →
       bindEventListener m keys pargs file = .error (.missingProperty keys.execute file)) ∧
    (∀ (m : ModuleExport) (keys : EventHandlerKeys) (pargs : List JsValue) (file : String),
       hasProperty m keys.isOnce = false → hasProperty m keys.isPrepend = false →
       ∀ e, bindEventListener m keys pargs file = .error e →
         e.isFlagTypeError = false) := by
  refine ⟨?_, ?_, ?_⟩
  · intro m keys pargs file h
    simp [bindEventListener, h]
  · intro m keys pargs file h1 h2
    simp [bindEventListener, h1, h2]
  · intro m keys pargs file h1 h2 e he
    have g1 := getProperty_of_not_has m keys.isOnce h1
    have g2 := getProperty_of_not_has m keys.isPrepend h2
    simp only [bindEventListener] at he
    split at he
    · injection he with h'
      subst h'
      rfl
    · split at he
      · injection he with h'
        subst h'
        rfl
      · split at he
        · injection he with h'
          subst h'
          rfl
        · split at he
          · rename_i hc
            rw [g1] at hc
            exact absurd hc.1 (by decide)
          · split at he
            · rename_i hc
              rw [g2] at hc
              exact absurd hc.1 (by decide)
            · split at he
              · injection he with h'
                subst h'
                rfl
              · split at he
                · split at he <;> exact Except.noConfusion he
                · split at he <;> exact Except.noConfusion he

/-- C3 witness: a candidate lacking its `name` property fails with the
error naming the `name` alias and the module file; one lacking `execute`
fails naming the `execute` alias. -/
theorem missing_required_properties_fail_witness :
    bindEventListener [("execute", JsValue.vFn false 0)]
        DEFAULT_EVENT_HANDLER_KEY_NAMES [] "file:///h.js" =
      .error (.missingProperty "name" "file:///h.js") ∧
    bindEventListener [("name", JsValue.vStr "e")]
        DEFAULT_EVENT_HANDLER_KEY_NAMES [] "file:///h.js" =
      .error (.missingProperty "execute" "file:///h.js") :=
  ⟨missing_required_properties_fail.1 _ DEFAULT_EVENT_HANDLER_KEY_NAMES [] _ rfl,
   missing_required_properties_fail.2.1 _ DEFAULT_EVENT_HANDLER_KEY_NAMES [] _ rfl rfl⟩

theorem name_check_passes (s : String) (hs : s ≠ "") :
    ¬(jsTruthy (JsValue.vStr s) = false ∨
      (jsTypeof (JsValue.vStr s) ≠ "string" ∧ jsTypeof (JsValue.vStr s) ≠ "symbol")) := by
  simp [jsTruthy, jsTypeof, hs]

/-- C4 counterexample: a handler whose name value is the number 42 — not
a string or symbol — passes validation and is registered (under the
coerced event name "42") instead of failing with a type error, because
the source applies `String(...)` before the type check. -/
theorem name_type_check_counterexample :
    bindEventListener [("name", JsValue.vNum 42), ("execute", JsValue.vFn false 7)]
        DEFAULT_EVENT_HANDLER_KEY_NAMES [] "file:///n.js" =
      .ok [⟨RegMethod.on, "42", ⟨false, 7, []⟩⟩] ∧
    jsTypeof (JsValue.vNum 42) ≠ "string" ∧ jsTypeof (JsValue.vNum 42) ≠ "symbol" :=
  ⟨rfl, by decide, by decide⟩

/-- C4 amended: the value under the name alias is first coerced with
`String(...)`; validation fails (with the type error naming the alias)
exactly when the coerced string is empty, and on success the coerced
string — not the original value — is used as the event name for
registration. -/
theorem name_value_coerced_amended (m : ModuleExport) (keys : EventHandlerKeys)
    (pargs : List JsValue) (file : String)
    (h1 : hasProperty m keys.name = true) (h2 : hasProperty m keys.execute = true) :
    (jsToString (getProperty m keys.name) = "" →
       bindEventListener m keys pargs file = .error (.invalidNameValue keys.name "" file)) ∧
    (∀ calls, bindEventListener m keys pargs file = .ok calls →
       ∀ c ∈ calls, c.eventName = jsToString (getProperty m keys.name)) := by
  constructor
  · intro hs
    simp only [bindEventListener]
    rw [hs]
    rw [if_neg (by simp [h1]), if_neg (by simp [h2]), if_pos (Or.inl (by rfl))]
  · intro calls hok c hc
    rw [bindEventListener_ok_shape m keys pargs file calls hok] at hc
    rw [List.mem_singleton] at hc
    subst hc
    rfl

/-- C4 amended witness: an empty-string name fails with the type error,
and a symbol-valued name is registered under its string coercion
`Symbol(evt)`, not under the symbol itself. -/
theorem name_value_coerced_amended_witness :
    bindEventListener [("name", JsValue.vStr ""), ("execute", JsValue.vFn false 1)]
        DEFAULT_EVENT_HANDLER_KEY_NAMES [] "file:///n.js" =
      .error (.invalidNameValue "name" "" "file:///n.js") ∧
    (⟨RegMethod.on, "Symbol(evt)", ⟨false, 1, []⟩⟩ : EmitterCall).eventName =
      jsToString (getProperty [("name", JsValue.vSym "evt"), ("execute", JsValue.vFn false 1)]
        DEFAULT_EVENT_HANDLER_KEY_NAMES.name) :=
  ⟨(name_value_coerced_amended [("name", JsValue.vStr ""), ("execute", JsValue.vFn false 1)]
      DEFAULT_EVENT_HANDLER_KEY_NAMES [] "file:///n.js" rfl rfl).1 rfl,
   (name_value_coerced_amended [("name", JsValue.vSym "evt"), ("execute", JsValue.vFn false 1)]
      DEFAULT_EVENT_HANDLER_KEY_NAMES [] "file:///s.js" rfl rfl).2
     [⟨RegMethod.on, "Symbol(evt)", ⟨false, 1, []⟩⟩] rfl _ (List.mem_cons_self _ _)⟩

/-- C5 counterexample: a handler that carries `isOnce: 0` — present and
not a boolean — passes validation (the flag is treated as false) instead
of failing with a type error, because the source only rejects truthy
non-boolean flag values. -/
theorem flag_type_check_counterexample :
    bindEventListener
        [("name", JsValue.vStr "e"), ("isOnce", JsValue.vNum 0), ("execute", JsValue.vFn false 1)]
        DEFAULT_EVENT_HANDLER_KEY_NAMES [] "file:///o.js" =
      .ok [⟨RegMethod.on, "e", ⟨false, 1, []⟩⟩] ∧
    hasProperty
        [("name", JsValue.vStr "e"), ("isOnce", JsValue.vNum 0), ("execute", JsValue.vFn false 1)]
        "isOnce" = true ∧
    jsTypeof (JsValue.vNum 0) ≠ "boolean" :=
  ⟨rfl, rfl, by decide⟩

/-- C5 amended: a truthy non-boolean value under the isOnce alias (or,
when the once check passes, under the isPrepend alias) fails validation
with the type error naming the alias; a falsy value — absent or present —
is accepted and the flag is treated as false, yielding a non-once
registration. -/
theorem flag_truthiness_check_amended (m : ModuleExport) (keys : EventHandlerKeys)
    (pargs : List JsValue) (file : String)
    (h1 : hasProperty m keys.name = true) (h2 : hasProperty m keys.execute = true)
    (h3 : jsToString (getProperty m keys.name) ≠ "") :
    (jsTruthy (getProperty m keys.isOnce) = true →
       jsTypeof (getProperty m keys.isOnce) ≠ "boolean" →
       bindEventListener m keys pargs file = .error (.invalidIsOnceValue keys.isOnce file)) ∧
    (jsTruthy (getProperty m keys.isOnce) = false →
       jsTruthy (getProperty m keys.isPrepend) = true →
       jsTypeof (getProperty m keys.isPrepend) ≠ "boolean" →
       bindEventListener m keys pargs file = .error (.invalidIsPrependValue keys.isPrepend file)) ∧
    (∀ calls, bindEventListener m keys pargs file = .ok calls →
       jsTruthy (getProperty m keys.isOnce) = false →
       ∀ c ∈ calls, c.method = RegMethod.prependListener ∨ c.method = RegMethod.on) := by
  refine ⟨?_, ?_, ?_⟩
  · intro ha hb
    simp only [bindEventListener]
    rw [if_neg (by simp [h1]), if_neg (by simp [h2]),
        if_neg (name_check_passes _ h3), if_pos ⟨ha, hb⟩]
  · intro ha hb hc
    simp only [bindEventListener]
    rw [if_neg (by simp [h1]), if_neg (by simp [h2]),
        if_neg (name_check_passes _ h3), if_neg (by simp [ha]), if_pos ⟨hb, hc⟩]
  · intro calls hok hOnce c hc
    rw [bindEventListener_ok_shape m keys pargs file calls hok] at hc
    rw [List.mem_singleton] at hc
    subst hc
    cases hp : jsTruthy (getProperty m keys.isPrepend) with
    | false =>
      right
      simp [hOnce, hp]
    | true =>
      left
      simp [hOnce, hp]

/-- C5 amended witness: `isOnce: "yes"` (truthy, not boolean) fails with
the isOnce type error, while `isOnce: 0` (falsy, not boolean) binds with
the plain `on` method. -/
theorem flag_truthiness_check_amended_witness :
    bindEventListener
        [("name", JsValue.vStr "e"), ("isOnce", JsValue.vStr "yes"), ("execute", JsValue.vFn false 1)]
        DEFAULT_EVENT_HANDLER_KEY_NAMES [] "file:///o.js" =
      .error (.invalidIsOnceValue "isOnce" "file:///o.js") ∧
    ((⟨RegMethod.on, "e", ⟨false, 1, []⟩⟩ : EmitterCall).method = RegMethod.prependListener ∨
     (⟨RegMethod.on, "e", ⟨false, 1, []⟩⟩ : EmitterCall).method = RegMethod.on) :=
  ⟨(flag_truthiness_check_amended
      [("name", JsValue.vStr "e"), ("isOnce", JsValue.vStr "yes"), ("execute", JsValue.vFn false 1)]
      DEFAULT_EVENT_HANDLER_KEY_NAMES [] "file:///o.js" rfl rfl (by decide)).1 rfl (by decide),
   (flag_truthiness_check_amended
      [("name", JsValue.vStr "e"), ("isOnce", JsValue.vNum 0), ("execute", JsValue.vFn false 1)]
      DEFAULT_EVENT_HANDLER_KEY_NAMES [] "file:///p.js" rfl rfl (by decide)).2.2
     [⟨RegMethod.on, "e", ⟨false, 1, []⟩⟩] rfl rfl _ (List.mem_cons_self _ _)⟩

theorem collectNamedExports_eq (ns : ModuleNamespace) :
    collectNamedExports ns =
      ((ns.filter (fun p => !(!jsTruthy p.2 || p.1 == "default"))).map (fun p => p.2),
       (ns.filter (fun p => (!jsTruthy p.2 || p.1 == "default"))).map (fun p => p.1)) := by
  induction ns with
  | nil => rfl
  | cons hd tl ih =>
    obtain ⟨n, v⟩ := hd
    simp only [collectNamedExports, ih, List.filter_cons]
    cases hc : (!jsTruthy v || n == "default") <;> simp

theorem collectNamedExports_logs_mem (ns : ModuleNamespace) (p : String × JsValue)
    (hp : p ∈ ns) (hf : jsTruthy p.2 = false) :
    p.1 ∈ (collectNamedExports ns).2 := by
  induction ns with
  | nil => cases hp
  | cons hd tl ih =>
    obtain ⟨n, v⟩ := hd
    rcases List.mem_cons.mp hp with h | h
    · subst h
      have hv : jsTruthy v = false := hf
      simp only [collectNamedExports]
      rw [if_pos (by rw [hv]; rfl)]
      exact List.mem_cons_self _ _
    · have hmem := ih h
      simp only [collectNamedExports]
      split
      · exact List.mem_cons_of_mem _ hmem
      · exact hmem

/-- C6 counterexample: under the `named` policy with preferred export
name `*`, a module whose only own-named export `foo` has the falsy value
0 yields no handler candidate at all (the export is skipped with a
logged message), contradicting the claim that every own-named non-default
export is yielded. -/
theorem namedStar_falsy_export_counterexample :
    importModule [("foo", JsValue.vNum 0)] "named" "*" "file:///z.js" = .ok ([], ["foo"]) ∧
    ([] : List JsValue) ≠ [JsValue.vNum 0] :=
  ⟨rfl, by decide⟩

/-- C6 amended: under `named` with preferred export name `*`, importing
yields exactly the truthy own-named exports other than the default
export, in namespace order, each treated as a handler candidate; the
skipped (falsy or default) export slots are logged by name. -/
theorem namedStar_yields_truthy_named_exports_amended (ns : ModuleNamespace) (file : String) :
    importModule ns "named" "*" file =
      .ok ((ns.filter (fun p => !(!jsTruthy p.2 || p.1 == "default"))).map (fun p => p.2),
           (ns.filter (fun p => (!jsTruthy p.2 || p.1 == "default"))).map (fun p => p.1)) := by
  simp only [importModule]
  rw [if_pos (by simp), collectNamedExports_eq]

/-- C7: when a bind-override callback is supplied, the per-export loop
invokes the override for every imported handler candidate with the
candidate, the source file location and the prepended arguments
(awaiting it exactly when it is declared asynchronous), performs no
registration itself, and can never fail with a validation error. -/
theorem override_replaces_binding (moduleExports : List ModuleExport)
    (keys : EventHandlerKeys) (pargs : List JsValue) (file : String) (f : OverrideFn) :
    processModuleExports moduleExports keys pargs file (some f) =
      .ok (moduleExports.map (fun me => BindAction.overridden f.isAsync f.id me file pargs)) := by
  induction moduleExports with
  | nil => rfl
  | cons me rest ih => simp [processModuleExports, ih]

/-- C10: a requested export slot that exists but holds a falsy value is
treated like an absent export — the `default` policy and the `named`
policy with a specific export name fail with the export-not-found error —
while the `named` policy with `*` never fails and instead logs the falsy
export's name. -/
theorem falsy_export_lookup_behaviour :
    (∀ (ns : ModuleNamespace) (pname file : String),
       namespaceHas ns "default" = true →
       jsTruthy (namespaceGet ns "default") = false →
       importModule ns "default" pname file =
         .error (.exportNotFound false "default" file)) ∧
    (∀ (ns : ModuleNamespace) (pname file : String),
       pname ≠ "*" → namespaceHas ns pname = true →
       jsTruthy (namespaceGet ns pname) = false →
       importModule ns "named" pname file =
         .error (.exportNotFound true pname file)) ∧
    (∀ (ns : ModuleNamespace) (file : String) (p : String × JsValue),
       p ∈ ns → jsTruthy p.2 = false →
       ∃ kept logs, importModule ns "named" "*" file = .ok (kept, logs) ∧ p.1 ∈ logs) := by
  refine ⟨?_, ?_, ?_⟩
  · intro ns pname file h1 h2
    simp [importModule, h1, h2]
  · intro ns pname file hne h1 h2
    simp [importModule, hne, h1, h2]
  · intro ns file p hp hf
    refine ⟨(collectNamedExports ns).1, (collectNamedExports ns).2, ?_,
      collectNamedExports_logs_mem ns p hp hf⟩
    simp only [importModule]
    rw [if_pos (by simp)]

/-- C10 witness: a module whose `default` export slot holds `false`
fails export lookup under the default policy; one whose `eventHandler`
slot holds `null` fails under the named policy; and a namespace with a
falsy `foo` export is imported without error under `named:*`, with `foo`
in the log. -/
theorem falsy_export_lookup_behaviour_witness :
    importModule [("default", JsValue.vBool false)] "default" "eventHandler" "file:///d.js" =
      .error (.exportNotFound false "default" "file:///d.js") ∧
    importModule [("eventHandler", JsValue.vNull)] "named" "eventHandler" "file:///e.js" =
      .error (.exportNotFound true "eventHandler" "file:///e.js") ∧
    ∃ kept logs,
      importModule [("foo", JsValue.vBool false)] "named" "*" "file:///g.js" = .ok (kept, logs) ∧
      "foo" ∈ logs :=
  ⟨falsy_export_lookup_behaviour.1 [("default", JsValue.vBool false)] "eventHandler" "file:///d.js" rfl rfl,
   falsy_export_lookup_behaviour.2.1 [("eventHandler", JsValue.vNull)] "eventHandler" "file:///e.js"
     (by decide) rfl rfl,
   falsy_export_lookup_behaviour.2.2 [("foo", JsValue.vBool false)] "file:///g.js"
     ("foo", JsValue.vBool false) (List.mem_cons_self _ _) rfl⟩

/-- C8 counterexample: passing `null` as the options argument does not
raise any invalid-options error — option resolution succeeds with the
default options, contradicting the claim that a non-mapping options
argument is rejected. -/
theorem options_null_counterexample :
    resolveOptions OptionsArg.null = .ok defaultResolvedOptions := rfl

/-- C8 amended: the options argument's own type is never checked: an
absent, primitive or array options argument contributes none of the
recognized option keys when spread over the defaults, so option
resolution succeeds with the default options and no invalid-options
error is raised before files are processed. -/
theorem options_no_plain_mapping_check_amended (v : JsValue) (vs : List JsValue) :
    resolveOptions OptionsArg.undefinedArg = .ok defaultResolvedOptions ∧
    resolveOptions (OptionsArg.prim v) = .ok defaultResolvedOptions ∧
    resolveOptions (OptionsArg.arr vs) = .ok defaultResolvedOptions :=
  ⟨rfl, rfl, rfl⟩

theorem bool_guard_eq (a b c d : Bool) :
    (!(!a && !b && !c && !d)) = (a || b || c || d) := by
  cases a <;> cases b <;> cases c <;> cases d <;> rfl

/-- C9 counterexample: the file name `xcjs` proceeds past the extension
guard (the source tests `endsWith("cjs")` without a dot) although it has
none of the recognized loadable-module extensions, contradicting the
claim that only files with a recognized extension proceed. -/
theorem extension_filter_counterexample :
    fileProceeds "xcjs" = true ∧ hasLoadableModuleExtension "xcjs" = false :=
  ⟨rfl, rfl⟩

/-- C9 amended: a file proceeds to import and binding exactly when its
name ends in `.js`, `.ts`, `.mjs`, or in the bare character run `cjs`
(no dot required, so `.cjs` files qualify but so does e.g. `xcjs`);
every other file is skipped silently, producing no candidates, no logs
and no error. -/
theorem extension_guard_amended (f : String) :
    (fileProceeds f =
      (jsEndsWith f ".js" || jsEndsWith f ".ts" || jsEndsWith f ".mjs" || jsEndsWith f "cjs")) ∧
    (fileProceeds f = false →
      ∀ (ns : ModuleNamespace) (et pn fu : String),
        loadEventHandlerFile f ns et pn fu = .ok ([], [])) := by
  constructor
  · exact bool_guard_eq _ _ _ _
  · intro h ns et pn fu
    simp [loadEventHandlerFile, h]

/-- C9 amended witness: `xcjs` satisfies the guard equation, and the
non-module file `notes.txt` is skipped with an empty, error-free result. -/
theorem extension_guard_amended_witness :
    (fileProceeds "xcjs" =
      (jsEndsWith "xcjs" ".js" || jsEndsWith "xcjs" ".ts" ||
       jsEndsWith "xcjs" ".mjs" || jsEndsWith "xcjs" "cjs")) ∧
    loadEventHandlerFile "notes.txt" [] "default" "eventHandler" "file:///t.txt" =
      .ok ([], []) :=
  ⟨(extension_guard_amended "xcjs").1,
   (extension_guard_amended "notes.txt").2 rfl [] "default" "eventHandler" "file:///t.txt"⟩
